import Mathlib

/-!
Shallow embedding of `crates/cuda_std/src/thread.rs` (thread-indexing and
block-synchronization primitives of the `cuda_std` crate, compiled for the
`nvptx64` target, where `usize` is 64 bits wide and the NVVM intrinsics
return `u32`).

The execution environment visible to one CUDA thread is modelled as a record
of the twelve special-register values read by the `__nvvm_*` intrinsics
declared at the top of `thread.rs`.  Each register holds a `u32`; `as usize`
preserves the value.  All `usize` arithmetic performed by the Rust code is
modelled as natural-number arithmetic reduced modulo `2 ^ 64` at every
operation, which is the behaviour of a release build on this target.
-/

namespace CudaStd

/-- Number of values of `usize` on the `nvptx64` target (64 bits). -/
def USIZE : Nat := 2 ^ 64

/-- Number of values of `u32`, the return type of the NVVM register
intrinsics. -/
def U32 : Nat := 2 ^ 32

/-- Type `vek::Vec3<usize>`: a 3-component vector with fields `x`, `y`, `z`. -/
@[ext]
structure Vec3 (α : Type) where
  x : α
  y : α
  z : α
deriving DecidableEq, Repr

/-- Type `vek::Vec2<usize>`: a 2-component vector with fields `x`, `y`. -/
@[ext]
structure Vec2 (α : Type) where
  x : α
  y : α
deriving DecidableEq, Repr

/-- Constant `Vec3::zero()` as used by `first()` in the source. -/
def Vec3.zero : Vec3 Nat := ⟨0, 0, 0⟩

/-- The values of the twelve special registers read by the `__nvvm_*`
intrinsics (`defined in libintrinsics.ll`): the calling thread's
thread index, block index, block dimension and grid dimension, one `u32`
per axis. -/
structure ThreadEnv where
  threadIdxX : Nat
  threadIdxY : Nat
  threadIdxZ : Nat
  blockIdxX : Nat
  blockIdxY : Nat
  blockIdxZ : Nat
  blockDimX : Nat
  blockDimY : Nat
  blockDimZ : Nat
  gridDimX : Nat
  gridDimY : Nat
  gridDimZ : Nat
deriving DecidableEq, Repr

/-- Wrapping `usize` addition: `a + b` in a release build. -/
def uadd (a b : Nat) : Nat := (a + b) % USIZE

/-- Wrapping `usize` multiplication: `a * b` in a release build. -/
def umul (a b : Nat) : Nat := (a * b) % USIZE

/-- Accessor `thread_idx_x()`: `__nvvm_thread_idx_x() as usize`. -/
def thread_idx_x (env : ThreadEnv) : Nat := env.threadIdxX

/-- Accessor `thread_idx_y()`: `__nvvm_thread_idx_y() as usize`. -/
def thread_idx_y (env : ThreadEnv) : Nat := env.threadIdxY

/-- Accessor `thread_idx_z()`: `__nvvm_thread_idx_z() as usize`. -/
def thread_idx_z (env : ThreadEnv) : Nat := env.threadIdxZ

/-- Accessor `block_idx_x()`: `__nvvm_block_idx_x() as usize`. -/
def block_idx_x (env : ThreadEnv) : Nat := env.blockIdxX

/-- Accessor `block_idx_y()`: `__nvvm_block_idx_y() as usize`. -/
def block_idx_y (env : ThreadEnv) : Nat := env.blockIdxY

/-- Accessor `block_idx_z()`: `__nvvm_block_idx_z() as usize`. -/
def block_idx_z (env : ThreadEnv) : Nat := env.blockIdxZ

/-- Accessor `block_dim_x()`: `__nvvm_block_dim_x() as usize`. -/
def block_dim_x (env : ThreadEnv) : Nat := env.blockDimX

/-- Accessor `block_dim_y()`: `__nvvm_block_dim_y() as usize`. -/
def block_dim_y (env : ThreadEnv) : Nat := env.blockDimY

/-- Accessor `block_dim_z()`: `__nvvm_block_dim_z() as usize`. -/
def block_dim_z (env : ThreadEnv) : Nat := env.blockDimZ

/-- Accessor `grid_dim_x()`: `__nvvm_grid_dim_x() as usize`. -/
def grid_dim_x (env : ThreadEnv) : Nat := env.gridDimX

/-- Accessor `grid_dim_y()`: `__nvvm_grid_dim_y() as usize`. -/
def grid_dim_y (env : ThreadEnv) : Nat := env.gridDimY

/-- Accessor `grid_dim_z()`: `__nvvm_grid_dim_z() as usize`. -/
def grid_dim_z (env : ThreadEnv) : Nat := env.gridDimZ

/-- Accessor `thread_idx()`: `Vec3::new(__nvvm_thread_idx_x() as usize, ...)`. -/
def thread_idx (env : ThreadEnv) : Vec3 Nat :=
  ⟨env.threadIdxX, env.threadIdxY, env.threadIdxZ⟩

/-- Accessor `block_idx()`: `Vec3::new(__nvvm_block_idx_x() as usize, ...)`. -/
def block_idx (env : ThreadEnv) : Vec3 Nat :=
  ⟨env.blockIdxX, env.blockIdxY, env.blockIdxZ⟩

/-- Accessor `block_dim()`: `Vec3::new(__nvvm_block_dim_x() as usize, ...)`. -/
def block_dim (env : ThreadEnv) : Vec3 Nat :=
  ⟨env.blockDimX, env.blockDimY, env.blockDimZ⟩

/-- Accessor `grid_dim()`: `Vec3::new(__nvvm_grid_dim_x() as usize, ...)`. -/
def grid_dim (env : ThreadEnv) : Vec3 Nat :=
  ⟨env.gridDimX, env.gridDimY, env.gridDimZ⟩

/-- Method `Vec3::product()` of `vek` evaluated in `usize` arithmetic:
`x * y * z` with each multiplication wrapping. -/
def uproduct (v : Vec3 Nat) : Nat := umul (umul v.x v.y) v.z

/-- Function `index()`:

    let block_id = block_idx.x + block_idx.y * grid_dim.x
                       + grid_dim.x * grid_dim.y * block_idx.z;
    block_id * block_dim.product()
    + (thread_idx.z * (block_dim.x * block_dim.y))
    + (thread_idx.y * block_dim.x) + thread_idx.x

with every `+` and `*` a `usize` operation. -/
def index (env : ThreadEnv) : Nat :=
  let gd := grid_dim env
  let bi := block_idx env
  let bd := block_dim env
  let ti := thread_idx env
  let block_id := uadd (uadd bi.x (umul bi.y gd.x)) (umul (umul gd.x gd.y) bi.z)
  uadd (uadd (uadd (umul block_id (uproduct bd))
      (umul ti.z (umul bd.x bd.y)))
      (umul ti.y bd.x)) ti.x

/-- Function `index_2d()`: per-axis global position for the x and y axes. -/
def index_2d (env : ThreadEnv) : Vec2 Nat :=
  let i := uadd (thread_idx_x env) (umul (block_idx_x env) (block_dim_x env))
  let j := uadd (thread_idx_y env) (umul (block_idx_y env) (block_dim_y env))
  ⟨i, j⟩

/-- Function `index_3d()`: per-axis global position for the x, y and z axes. -/
def index_3d (env : ThreadEnv) : Vec3 Nat :=
  let i := uadd (thread_idx_x env) (umul (block_idx_x env) (block_dim_x env))
  let j := uadd (thread_idx_y env) (umul (block_idx_y env) (block_dim_y env))
  let k := uadd (thread_idx_z env) (umul (block_idx_z env) (block_dim_z env))
  ⟨i, j, k⟩

/-- Function `first()`: `block_idx() == Vec3::zero() && thread_idx() == Vec3::zero()`. -/
def first (env : ThreadEnv) : Bool :=
  decide (block_idx env = Vec3.zero) && decide (thread_idx env = Vec3.zero)

/-- Builds the environment of the thread with block index `bi` and thread
index `ti` in a launch with grid dimension `gd` and block dimension `bd`. -/
def mkEnv (gd bd bi ti : Vec3 Nat) : ThreadEnv :=
  ⟨ti.x, ti.y, ti.z, bi.x, bi.y, bi.z, bd.x, bd.y, bd.z, gd.x, gd.y, gd.z⟩

/-- The coordinate `i` is a valid index into a space of dimensions `d`:
every component is strictly below the corresponding dimension. -/
def validIdx (d i : Vec3 Nat) : Prop := i.x < d.x ∧ i.y < d.y ∧ i.z < d.z

instance (d i : Vec3 Nat) : Decidable (validIdx d i) := by
  unfold validIdx; infer_instance

/-- Total number of points of a 3-dimensional index space (exact
natural-number product, no wrapping). -/
def vol (d : Vec3 Nat) : Nat := d.x * d.y * d.z

/-- The flattened-index formula exactly as the specification words it
(exact natural-number arithmetic, no wrapping):
`block_id * (block_dim.x * block_dim.y * block_dim.z)
 + thread_idx.z * block_dim.x * block_dim.y
 + thread_idx.y * block_dim.x + thread_idx.x` with
`block_id = block_idx.x + block_idx.y * grid_dim.x
 + block_idx.z * grid_dim.x * grid_dim.y`. -/
def indexSpec (gd bd bi ti : Vec3 Nat) : Nat :=
  let block_id := bi.x + bi.y * gd.x + bi.z * (gd.x * gd.y)
  block_id * (bd.x * bd.y * bd.z) + ti.z * (bd.x * bd.y) + ti.y * bd.x + ti.x

/-- Row-major (x fastest-varying) flattening of a 3-dimensional coordinate. -/
def flat3 (d i : Vec3 Nat) : Nat := i.x + i.y * d.x + i.z * (d.x * d.y)

/-- Inverse of `flat3`: digit extraction by division and remainder. -/
def unflat3 (d : Vec3 Nat) (n : Nat) : Vec3 Nat :=
  ⟨n % d.x, n / d.x % d.y, n / d.x / d.y⟩

/-- Inverse of the flattened-index formula: splits a flat index into the
block coordinate and the in-block thread coordinate. -/
def unflatten (gd bd : Vec3 Nat) (n : Nat) : Vec3 Nat × Vec3 Nat :=
  (unflat3 gd (n / vol bd), unflat3 bd (n % vol bd))

/-- All twelve registers of the environment hold `u32` values, as the types
of the NVVM intrinsics guarantee. -/
def EnvU32 (env : ThreadEnv) : Prop :=
  env.threadIdxX < U32 ∧ env.threadIdxY < U32 ∧ env.threadIdxZ < U32 ∧
  env.blockIdxX < U32 ∧ env.blockIdxY < U32 ∧ env.blockIdxZ < U32 ∧
  env.blockDimX < U32 ∧ env.blockDimY < U32 ∧ env.blockDimZ < U32 ∧
  env.gridDimX < U32 ∧ env.gridDimY < U32 ∧ env.gridDimZ < U32

instance (env : ThreadEnv) : Decidable (EnvU32 env) := by
  unfold EnvU32; infer_instance

/-- The twelve registers classified, for recording read order. -/
inductive Reg where
  | tidX | tidY | tidZ
  | bidX | bidY | bidZ
  | bdimX | bdimY | bdimZ
  | gdimX | gdimY | gdimZ
deriving DecidableEq, Repr

/-- The value held by one register of the environment. -/
def regValue (env : ThreadEnv) : Reg → Nat
  | .tidX => env.threadIdxX
  | .tidY => env.threadIdxY
  | .tidZ => env.threadIdxZ
  | .bidX => env.blockIdxX
  | .bidY => env.blockIdxY
  | .bidZ => env.blockIdxZ
  | .bdimX => env.blockDimX
  | .bdimY => env.blockDimY
  | .bdimZ => env.blockDimZ
  | .gdimX => env.gridDimX
  | .gdimY => env.gridDimY
  | .gdimZ => env.gridDimZ

/-- One intrinsic register read: yields the register's value and appends the
register to the log of reads performed so far. -/
def readReg (env : ThreadEnv) (r : Reg) (log : List Reg) : Nat × List Reg :=
  (regValue env r, log ++ [r])

/-- Accessor `thread_idx()` with the sequence of intrinsic reads it performs made
explicit: Rust evaluates the three arguments of `Vec3::new` left to right,
so the source reads the x, then y, then z register. -/
def thread_idxTraced (env : ThreadEnv) : Vec3 Nat × List Reg :=
  let (x, l1) := readReg env .tidX []
  let (y, l2) := readReg env .tidY l1
  let (z, l3) := readReg env .tidZ l2
  (⟨x, y, z⟩, l3)

/-- Accessor `block_idx()` with its sequence of intrinsic reads made explicit. -/
def block_idxTraced (env : ThreadEnv) : Vec3 Nat × List Reg :=
  let (x, l1) := readReg env .bidX []
  let (y, l2) := readReg env .bidY l1
  let (z, l3) := readReg env .bidZ l2
  (⟨x, y, z⟩, l3)

/-- Accessor `block_dim()` with its sequence of intrinsic reads made explicit. -/
def block_dimTraced (env : ThreadEnv) : Vec3 Nat × List Reg :=
  let (x, l1) := readReg env .bdimX []
  let (y, l2) := readReg env .bdimY l1
  let (z, l3) := readReg env .bdimZ l2
  (⟨x, y, z⟩, l3)

/-- Accessor `grid_dim()` with its sequence of intrinsic reads made explicit. -/
def grid_dimTraced (env : ThreadEnv) : Vec3 Nat × List Reg :=
  let (x, l1) := readReg env .gdimX []
  let (y, l2) := readReg env .gdimY l1
  let (z, l3) := readReg env .gdimZ l2
  (⟨x, y, z⟩, l3)

/-- Modelled from the spec: the barrier-aggregation intrinsic behind
`sync_threads_count` (`llvm.nvvm.barrier0.popc`) is hardware behaviour, not
code of this crate; only its declaration appears in `thread.rs`.  A block of
`n` threads all reaching the same call site with per-thread predicates
`preds` receives, in every thread, the number of threads whose predicate
was non-zero. -/
def sync_threads_count (n : Nat) (preds : Fin n → Nat) : Nat :=
  (Finset.filter (fun i => preds i ≠ 0) Finset.univ).card

/-- Modelled from the spec: the intrinsic behind `sync_threads_and`
(`llvm.nvvm.barrier0.and`) returns, to every thread of the block, a non-zero
value exactly when every thread's predicate was non-zero. -/
def sync_threads_and (n : Nat) (preds : Fin n → Nat) : Nat :=
  if ∀ i, preds i ≠ 0 then 1 else 0

/-- Modelled from the spec: the intrinsic behind `sync_threads_or`
(`llvm.nvvm.barrier0.or`) returns, to every thread of the block, a non-zero
value exactly when at least one thread's predicate was non-zero. -/
def sync_threads_or (n : Nat) (preds : Fin n → Nat) : Nat :=
  if ∃ i, preds i ≠ 0 then 1 else 0

/-! ### Arithmetic bridge between wrapped and exact computations -/

lemma USIZE_pos : 0 < USIZE := by decide

lemma uadd_lt (a b : Nat) : uadd a b < USIZE := Nat.mod_lt _ USIZE_pos

lemma umul_lt (a b : Nat) : umul a b < USIZE := Nat.mod_lt _ USIZE_pos

lemma uadd_congr {a a' b b' : Nat} (ha : a ≡ a' [MOD USIZE])
    (hb : b ≡ b' [MOD USIZE]) : uadd a b ≡ a' + b' [MOD USIZE] := by
  have h : uadd a b ≡ a + b [MOD USIZE] := by
    unfold uadd Nat.ModEq
    exact Nat.mod_mod_of_dvd _ dvd_rfl
  exact h.trans (ha.add hb)

lemma umul_congr {a a' b b' : Nat} (ha : a ≡ a' [MOD USIZE])
    (hb : b ≡ b' [MOD USIZE]) : umul a b ≡ a' * b' [MOD USIZE] := by
  have h : umul a b ≡ a * b [MOD USIZE] := by
    unfold umul Nat.ModEq
    exact Nat.mod_mod_of_dvd _ dvd_rfl
  exact h.trans (ha.mul hb)

lemma index_modEq (env : ThreadEnv) :
    index env ≡
      indexSpec (grid_dim env) (block_dim env) (block_idx env) (thread_idx env)
      [MOD USIZE] := by
  have h : index env ≡
      ((env.blockIdxX + env.blockIdxY * env.gridDimX
          + (env.gridDimX * env.gridDimY) * env.blockIdxZ)
        * ((env.blockDimX * env.blockDimY) * env.blockDimZ)
        + env.threadIdxZ * (env.blockDimX * env.blockDimY)
        + env.threadIdxY * env.blockDimX + env.threadIdxX) [MOD USIZE] := by
    simp only [index, uproduct, grid_dim, block_idx, block_dim, thread_idx]
    exact uadd_congr
      (uadd_congr
        (uadd_congr
          (umul_congr
            (uadd_congr
              (uadd_congr (Nat.ModEq.refl _)
                (umul_congr (Nat.ModEq.refl _) (Nat.ModEq.refl _)))
              (umul_congr (umul_congr (Nat.ModEq.refl _) (Nat.ModEq.refl _))
                (Nat.ModEq.refl _)))
            (umul_congr (umul_congr (Nat.ModEq.refl _) (Nat.ModEq.refl _))
              (Nat.ModEq.refl _)))
          (umul_congr (Nat.ModEq.refl _)
            (umul_congr (Nat.ModEq.refl _) (Nat.ModEq.refl _))))
        (umul_congr (Nat.ModEq.refl _) (Nat.ModEq.refl _)))
      (Nat.ModEq.refl _)
  have h2 : (env.blockIdxX + env.blockIdxY * env.gridDimX
        + (env.gridDimX * env.gridDimY) * env.blockIdxZ)
      * ((env.blockDimX * env.blockDimY) * env.blockDimZ)
      + env.threadIdxZ * (env.blockDimX * env.blockDimY)
      + env.threadIdxY * env.blockDimX + env.threadIdxX
      = indexSpec (grid_dim env) (block_dim env) (block_idx env)
          (thread_idx env) := by
    simp only [indexSpec, grid_dim, block_dim, block_idx, thread_idx]
    ring
  exact h2 ▸ h

lemma index_lt (env : ThreadEnv) : index env < USIZE := by
  simp only [index]
  exact uadd_lt _ _

lemma index_eq_indexSpec_mod (env : ThreadEnv) :
    index env =
      indexSpec (grid_dim env) (block_dim env) (block_idx env) (thread_idx env)
      % USIZE := by
  have h := index_modEq env
  unfold Nat.ModEq at h
  rw [← h, Nat.mod_eq_of_lt (index_lt env)]

lemma index_mkEnv_eq_mod (gd bd bi ti : Vec3 Nat) :
    index (mkEnv gd bd bi ti) = indexSpec gd bd bi ti % USIZE :=
  index_eq_indexSpec_mod (mkEnv gd bd bi ti)

/-! ### Bijectivity of the flattening formula -/

lemma pos_of_mul_pos_left {a b : Nat} (h : 0 < a * b) : 0 < a := by
  rcases Nat.eq_zero_or_pos a with h0 | h0
  · rw [h0, Nat.zero_mul] at h
    exact absurd h (Nat.lt_irrefl 0)
  · exact h0

lemma pos_of_mul_pos_right {a b : Nat} (h : 0 < a * b) : 0 < b := by
  rcases Nat.eq_zero_or_pos b with h0 | h0
  · rw [h0, Nat.mul_zero] at h
    exact absurd h (Nat.lt_irrefl 0)
  · exact h0

lemma vol_pos_components {d : Vec3 Nat} {n : Nat} (h : n < vol d) :
    0 < d.x ∧ 0 < d.y ∧ 0 < d.z := by
  unfold vol at h
  have hd : 0 < d.x * d.y * d.z := Nat.lt_of_le_of_lt (Nat.zero_le n) h
  exact ⟨pos_of_mul_pos_left (pos_of_mul_pos_left hd),
    pos_of_mul_pos_right (pos_of_mul_pos_left hd),
    pos_of_mul_pos_right hd⟩

lemma flat3_lt {d i : Vec3 Nat} (h : validIdx d i) : flat3 d i < vol d := by
  obtain ⟨hx, hy, hz⟩ := h
  have h2 : i.y + d.y * i.z < d.y * d.z := by
    calc i.y + d.y * i.z < d.y + d.y * i.z := Nat.add_lt_add_right hy _
    _ = d.y * (i.z + 1) := by ring
    _ ≤ d.y * d.z := Nat.mul_le_mul (Nat.le_refl _) hz
  calc flat3 d i = i.x + d.x * (i.y + d.y * i.z) := by unfold flat3; ring
  _ < d.x + d.x * (i.y + d.y * i.z) := Nat.add_lt_add_right hx _
  _ = d.x * (i.y + d.y * i.z + 1) := by ring
  _ ≤ d.x * (d.y * d.z) := Nat.mul_le_mul (Nat.le_refl _) h2
  _ = vol d := by unfold vol; ring

lemma unflat3_flat3 {d i : Vec3 Nat} (h : validIdx d i) :
    unflat3 d (flat3 d i) = i := by
  obtain ⟨hx, hy, hz⟩ := h
  have hdx : 0 < d.x := Nat.lt_of_le_of_lt (Nat.zero_le _) hx
  have hdy : 0 < d.y := Nat.lt_of_le_of_lt (Nat.zero_le _) hy
  have hkey : flat3 d i = i.x + d.x * (i.y + d.y * i.z) := by
    unfold flat3; ring
  have h1 : flat3 d i % d.x = i.x := by
    rw [hkey, Nat.add_mul_mod_self_left, Nat.mod_eq_of_lt hx]
  have h2 : flat3 d i / d.x = i.y + d.y * i.z := by
    rw [hkey, Nat.add_mul_div_left _ _ hdx, Nat.div_eq_of_lt hx, Nat.zero_add]
  have h3 : flat3 d i / d.x % d.y = i.y := by
    rw [h2, Nat.add_mul_mod_self_left, Nat.mod_eq_of_lt hy]
  have h4 : flat3 d i / d.x / d.y = i.z := by
    rw [h2, Nat.add_mul_div_left _ _ hdy, Nat.div_eq_of_lt hy, Nat.zero_add]
  unfold unflat3
  rw [h1, h3, h4]

lemma flat3_unflat3 {d : Vec3 Nat} {n : Nat} (h : n < vol d) :
    validIdx d (unflat3 d n) ∧ flat3 d (unflat3 d n) = n := by
  obtain ⟨hdx, hdy, hdz⟩ := vol_pos_components h
  constructor
  · refine ⟨Nat.mod_lt _ hdx, Nat.mod_lt _ hdy, ?_⟩
    show n / d.x / d.y < d.z
    rw [Nat.div_div_eq_div_mul]
    refine (Nat.div_lt_iff_lt_mul (Nat.mul_pos hdx hdy)).2 ?_
    calc n < vol d := h
    _ = d.z * (d.x * d.y) := by unfold vol; ring
  · unfold flat3 unflat3
    calc n % d.x + n / d.x % d.y * d.x + n / d.x / d.y * (d.x * d.y)
        = n % d.x + d.x * (n / d.x % d.y + d.y * (n / d.x / d.y)) := by ring
    _ = n % d.x + d.x * (n / d.x) := by rw [Nat.mod_add_div]
    _ = n := Nat.mod_add_div n d.x

lemma indexSpec_eq_flat (gd bd bi ti : Vec3 Nat) :
    indexSpec gd bd bi ti = flat3 gd bi * vol bd + flat3 bd ti := by
  unfold indexSpec flat3 vol
  ring

lemma indexSpec_lt {gd bd bi ti : Vec3 Nat} (hbi : validIdx gd bi)
    (hti : validIdx bd ti) : indexSpec gd bd bi ti < vol gd * vol bd := by
  have h1 := flat3_lt hbi
  have h2 := flat3_lt hti
  rw [indexSpec_eq_flat]
  calc flat3 gd bi * vol bd + flat3 bd ti
      < flat3 gd bi * vol bd + vol bd := Nat.add_lt_add_left h2 _
  _ = (flat3 gd bi + 1) * vol bd := by ring
  _ ≤ vol gd * vol bd := Nat.mul_le_mul h1 (Nat.le_refl _)

lemma unflatten_indexSpec {gd bd bi ti : Vec3 Nat} (hbi : validIdx gd bi)
    (hti : validIdx bd ti) :
    unflatten gd bd (indexSpec gd bd bi ti) = (bi, ti) := by
  have ht := flat3_lt hti
  have hB : 0 < vol bd := Nat.lt_of_le_of_lt (Nat.zero_le _) ht
  have hdiv : indexSpec gd bd bi ti / vol bd = flat3 gd bi := by
    rw [indexSpec_eq_flat, Nat.add_comm, Nat.add_mul_div_right _ _ hB,
      Nat.div_eq_of_lt ht, Nat.zero_add]
  have hmod : indexSpec gd bd bi ti % vol bd = flat3 bd ti := by
    rw [indexSpec_eq_flat, Nat.add_comm, Nat.add_mul_mod_self_right,
      Nat.mod_eq_of_lt ht]
  unfold unflatten
  rw [hdiv, hmod, unflat3_flat3 hbi, unflat3_flat3 hti]

lemma indexSpec_unflatten {gd bd : Vec3 Nat} {n : Nat}
    (h : n < vol gd * vol bd) :
    validIdx gd (unflatten gd bd n).1 ∧ validIdx bd (unflatten gd bd n).2 ∧
    indexSpec gd bd (unflatten gd bd n).1 (unflatten gd bd n).2 = n := by
  have hGB : 0 < vol gd * vol bd := Nat.lt_of_le_of_lt (Nat.zero_le n) h
  have hB : 0 < vol bd := pos_of_mul_pos_right hGB
  have hq : n / vol bd < vol gd := (Nat.div_lt_iff_lt_mul hB).2 h
  have hr : n % vol bd < vol bd := Nat.mod_lt _ hB
  obtain ⟨hv1, he1⟩ := flat3_unflat3 hq
  obtain ⟨hv2, he2⟩ := flat3_unflat3 hr
  refine ⟨hv1, hv2, ?_⟩
  show indexSpec gd bd (unflat3 gd (n / vol bd)) (unflat3 bd (n % vol bd)) = n
  rw [indexSpec_eq_flat, he1, he2, Nat.mul_comm]
  exact Nat.div_add_mod n (vol bd)

lemma indexSpec_eq_zero_iff {gd bd bi ti : Vec3 Nat} (hbi : validIdx gd bi)
    (hti : validIdx bd ti) :
    indexSpec gd bd bi ti = 0 ↔ bi = Vec3.zero ∧ ti = Vec3.zero := by
  have hz : indexSpec gd bd Vec3.zero Vec3.zero = 0 := by
    simp [indexSpec, Vec3.zero]
  have hvz1 : validIdx gd Vec3.zero := by
    obtain ⟨h1, h2, h3⟩ := hbi
    exact ⟨Nat.lt_of_le_of_lt (Nat.zero_le _) h1,
      Nat.lt_of_le_of_lt (Nat.zero_le _) h2,
      Nat.lt_of_le_of_lt (Nat.zero_le _) h3⟩
  have hvz2 : validIdx bd Vec3.zero := by
    obtain ⟨h1, h2, h3⟩ := hti
    exact ⟨Nat.lt_of_le_of_lt (Nat.zero_le _) h1,
      Nat.lt_of_le_of_lt (Nat.zero_le _) h2,
      Nat.lt_of_le_of_lt (Nat.zero_le _) h3⟩
  constructor
  · intro h0
    have ha := unflatten_indexSpec hbi hti
    have hb := unflatten_indexSpec hvz1 hvz2
    rw [h0] at ha
    rw [hz] at hb
    have := ha.symm.trans hb
    exact ⟨(Prod.mk.injEq _ _ _ _ ▸ this).1, (Prod.mk.injEq _ _ _ _ ▸ this).2⟩
  · rintro ⟨rfl, rfl⟩
    exact hz

/-! ### Helpers about accessors, `mkEnv` and `first` -/

lemma grid_dim_mkEnv (gd bd bi ti : Vec3 Nat) :
    grid_dim (mkEnv gd bd bi ti) = gd := rfl

lemma block_dim_mkEnv (gd bd bi ti : Vec3 Nat) :
    block_dim (mkEnv gd bd bi ti) = bd := rfl

lemma block_idx_mkEnv (gd bd bi ti : Vec3 Nat) :
    block_idx (mkEnv gd bd bi ti) = bi := rfl

lemma thread_idx_mkEnv (gd bd bi ti : Vec3 Nat) :
    thread_idx (mkEnv gd bd bi ti) = ti := rfl

lemma first_eq_true_iff (env : ThreadEnv) :
    first env = true ↔
      block_idx env = Vec3.zero ∧ thread_idx env = Vec3.zero := by
  simp [first]

lemma uadd_umul_small {t b d : Nat} (ht : t < U32) (hb : b < U32)
    (hd : d < U32) : uadd t (umul b d) = t + b * d := by
  have h : b * d ≤ (U32 - 1) * (U32 - 1) := by
    apply Nat.mul_le_mul
    · unfold U32 at hb ⊢
      omega
    · unfold U32 at hd ⊢
      omega
  unfold uadd umul USIZE
  unfold U32 at h ht
  set p := b * d with hp
  omega

/-! ### Claim theorems -/

/-- C1 (amended): for every environment, `index()` returns the claimed
flattened-index formula `block_id * (block_dim.x * block_dim.y * block_dim.z)
+ thread_idx.z * block_dim.x * block_dim.y + thread_idx.y * block_dim.x
+ thread_idx.x` (with `block_id = block_idx.x + block_idx.y * grid_dim.x
+ block_idx.z * grid_dim.x * grid_dim.y`) reduced modulo `2 ^ 64`, the
wrapping of `usize` arithmetic — hence exactly the formula whenever its
value is below `2 ^ 64`; in particular, with block dimension `(4,1,1)`,
grid dimension `(2,1,1)`, `block_idx.x = 1` and `thread_idx.x = 2` it
returns `6`, and with block dimension `(2,2,1)`, grid dimension `(1,1,1)`
and `thread_idx = (1,1,0)` it returns `3`. -/
theorem index_formula_modular :
    (∀ env : ThreadEnv,
      index env =
        indexSpec (grid_dim env) (block_dim env) (block_idx env)
          (thread_idx env) % USIZE) ∧
    index (mkEnv ⟨2, 1, 1⟩ ⟨4, 1, 1⟩ ⟨1, 0, 0⟩ ⟨2, 0, 0⟩) = 6 ∧
    index (mkEnv ⟨1, 1, 1⟩ ⟨2, 2, 1⟩ ⟨0, 0, 0⟩ ⟨1, 1, 0⟩) = 3 :=
  ⟨index_eq_indexSpec_mod, by decide, by decide⟩

/-- C1 fails as universally stated: at this u32-representable input
(grid dimension `(2^30, 2^14, 2^14)`, block dimension `(1024,1,1)`, block
index `(0,0,1024)`, thread index `(0,0,0)`) the claimed formula has value
`2 ^ 64`, but `index()` — computing in 64-bit `usize` — returns `0`. -/
theorem index_formula_counterexample :
    EnvU32 (mkEnv ⟨2^30, 2^14, 2^14⟩ ⟨1024, 1, 1⟩ ⟨0, 0, 1024⟩ ⟨0, 0, 0⟩) ∧
    indexSpec ⟨2^30, 2^14, 2^14⟩ ⟨1024, 1, 1⟩ ⟨0, 0, 1024⟩ ⟨0, 0, 0⟩
      = 2 ^ 64 ∧
    index (mkEnv ⟨2^30, 2^14, 2^14⟩ ⟨1024, 1, 1⟩ ⟨0, 0, 1024⟩ ⟨0, 0, 0⟩)
      = 0 ∧
    index (mkEnv ⟨2^30, 2^14, 2^14⟩ ⟨1024, 1, 1⟩ ⟨0, 0, 1024⟩ ⟨0, 0, 0⟩) ≠
      indexSpec ⟨2^30, 2^14, 2^14⟩ ⟨1024, 1, 1⟩ ⟨0, 0, 1024⟩ ⟨0, 0, 0⟩ := by
  refine ⟨by decide, by decide, by decide, by decide⟩

/-- C2 (amended): for every launch configuration whose components are all
at least `1` and whose total thread count `G_x·G_y·G_z·B_x·B_y·B_z` is at
most `2 ^ 64` (so that the `usize` computation cannot wrap), the flattened
index computed by `index()` over all valid `(block_idx, thread_idx)` pairs
is a bijection onto the interval `[0, total)`: distinct threads receive
distinct values, every value is below the total, and every value below the
total is attained. -/
theorem index_bijection_of_no_overflow (gd bd : Vec3 Nat)
    (_hdims : 1 ≤ gd.x ∧ 1 ≤ gd.y ∧ 1 ≤ gd.z ∧
      1 ≤ bd.x ∧ 1 ≤ bd.y ∧ 1 ≤ bd.z)
    (hfit : vol gd * vol bd ≤ USIZE) :
    (∀ bi ti bi' ti', validIdx gd bi → validIdx bd ti → validIdx gd bi' →
        validIdx bd ti' →
        index (mkEnv gd bd bi ti) = index (mkEnv gd bd bi' ti') →
        bi = bi' ∧ ti = ti') ∧
    (∀ bi ti, validIdx gd bi → validIdx bd ti →
        index (mkEnv gd bd bi ti) < vol gd * vol bd) ∧
    (∀ n, n < vol gd * vol bd →
        ∃ bi ti, validIdx gd bi ∧ validIdx bd ti ∧
          index (mkEnv gd bd bi ti) = n) := by
  have key : ∀ bi ti, validIdx gd bi → validIdx bd ti →
      index (mkEnv gd bd bi ti) = indexSpec gd bd bi ti := by
    intro bi ti h1 h2
    rw [index_mkEnv_eq_mod]
    exact Nat.mod_eq_of_lt (Nat.lt_of_lt_of_le (indexSpec_lt h1 h2) hfit)
  refine ⟨?_, ?_, ?_⟩
  · intro bi ti bi' ti' h1 h2 h3 h4 heq
    rw [key _ _ h1 h2, key _ _ h3 h4] at heq
    have ha := unflatten_indexSpec h1 h2
    have hb := unflatten_indexSpec h3 h4
    rw [heq] at ha
    have hab : (bi, ti) = (bi', ti') := ha.symm.trans hb
    exact ⟨congrArg Prod.fst hab, congrArg Prod.snd hab⟩
  · intro bi ti h1 h2
    rw [key _ _ h1 h2]
    exact indexSpec_lt h1 h2
  · intro n hn
    obtain ⟨hv1, hv2, he⟩ := indexSpec_unflatten hn
    refine ⟨_, _, hv1, hv2, ?_⟩
    rw [key _ _ hv1 hv2]
    exact he

/-- Witness for C2 (amended): in the launch with grid dimension `(2,1,1)`
and block dimension `(4,1,1)` — 8 threads total — the value `5` is attained
by some valid thread. -/
theorem index_bijection_of_no_overflow_witness :
    ∃ bi ti, validIdx ⟨2, 1, 1⟩ bi ∧ validIdx ⟨4, 1, 1⟩ ti ∧
      index (mkEnv ⟨2, 1, 1⟩ ⟨4, 1, 1⟩ bi ti) = 5 :=
  (index_bijection_of_no_overflow ⟨2, 1, 1⟩ ⟨4, 1, 1⟩ (by decide)
    (by decide)).2.2 5 (by decide)

/-- C2 fails as universally stated: in the u32-representable launch with
grid dimension `(2^30, 2^14, 2^14)` and block dimension `(1024,1,1)` — a
total of `2 ^ 68` threads — the distinct valid threads with block index
`(0,0,1024)` / thread index `(0,0,0)` and block index `(0,0,0)` / thread
index `(0,0,0)` both receive flattened index `0`, so `index()` is not
injective there. -/
theorem index_bijection_counterexample :
    EnvU32 (mkEnv ⟨2^30, 2^14, 2^14⟩ ⟨1024, 1, 1⟩ ⟨0, 0, 1024⟩ ⟨0, 0, 0⟩) ∧
    EnvU32 (mkEnv ⟨2^30, 2^14, 2^14⟩ ⟨1024, 1, 1⟩ ⟨0, 0, 0⟩ ⟨0, 0, 0⟩) ∧
    validIdx ⟨2^30, 2^14, 2^14⟩ ⟨0, 0, 1024⟩ ∧
    validIdx ⟨2^30, 2^14, 2^14⟩ ⟨0, 0, 0⟩ ∧
    validIdx ⟨1024, 1, 1⟩ ⟨0, 0, 0⟩ ∧
    (⟨0, 0, 1024⟩ : Vec3 Nat) ≠ ⟨0, 0, 0⟩ ∧
    index (mkEnv ⟨2^30, 2^14, 2^14⟩ ⟨1024, 1, 1⟩ ⟨0, 0, 1024⟩ ⟨0, 0, 0⟩) =
      index (mkEnv ⟨2^30, 2^14, 2^14⟩ ⟨1024, 1, 1⟩ ⟨0, 0, 0⟩ ⟨0, 0, 0⟩) := by
  refine ⟨by decide, by decide, by decide, by decide, by decide, by decide,
    by decide⟩

/-- C3: in a 1D launch (`grid_dim.y = grid_dim.z = block_dim.y =
block_dim.z = 1`, and the y and z components of the thread and block
indices are `0`), `index()` returns `thread_idx.x + block_idx.x *
block_dim.x` (as a `usize` computation), which is exactly the x component
of `index_2d()`. -/
theorem index_one_dimensional (env : ThreadEnv)
    (_hgy : grid_dim_y env = 1) (_hgz : grid_dim_z env = 1)
    (hby : block_dim_y env = 1) (hbz : block_dim_z env = 1)
    (hty : thread_idx_y env = 0) (htz : thread_idx_z env = 0)
    (hiy : block_idx_y env = 0) (hiz : block_idx_z env = 0) :
    index env = (index_2d env).x ∧
    index env = (thread_idx_x env + block_idx_x env * block_dim_x env)
      % USIZE := by
  simp only [block_dim_y, block_dim_z, thread_idx_y,
    thread_idx_z, block_idx_y, block_idx_z] at hby hbz hty htz hiy hiz
  have hmain : index env =
      (thread_idx_x env + block_idx_x env * block_dim_x env) % USIZE := by
    rw [index_eq_indexSpec_mod env]
    congr 1
    simp only [indexSpec, grid_dim, block_idx, block_dim, thread_idx,
      thread_idx_x, block_idx_x, block_dim_x]
    rw [hby, hbz, hty, htz, hiy, hiz]
    ring
  refine ⟨?_, hmain⟩
  rw [hmain]
  simp only [index_2d, uadd, umul, thread_idx_x, block_idx_x, block_dim_x]
  rw [Nat.add_mod_mod]

/-- Witness for C3: the thread with `thread_idx.x = 1`, `block_idx.x = 2`
in a 1D launch with `block_dim.x = 3` and `grid_dim.x = 5`. -/
theorem index_one_dimensional_witness :
    index (mkEnv ⟨5, 1, 1⟩ ⟨3, 1, 1⟩ ⟨2, 0, 0⟩ ⟨1, 0, 0⟩) =
      (index_2d (mkEnv ⟨5, 1, 1⟩ ⟨3, 1, 1⟩ ⟨2, 0, 0⟩ ⟨1, 0, 0⟩)).x ∧
    index (mkEnv ⟨5, 1, 1⟩ ⟨3, 1, 1⟩ ⟨2, 0, 0⟩ ⟨1, 0, 0⟩) =
      (thread_idx_x (mkEnv ⟨5, 1, 1⟩ ⟨3, 1, 1⟩ ⟨2, 0, 0⟩ ⟨1, 0, 0⟩) +
        block_idx_x (mkEnv ⟨5, 1, 1⟩ ⟨3, 1, 1⟩ ⟨2, 0, 0⟩ ⟨1, 0, 0⟩) *
          block_dim_x (mkEnv ⟨5, 1, 1⟩ ⟨3, 1, 1⟩ ⟨2, 0, 0⟩ ⟨1, 0, 0⟩))
        % USIZE :=
  index_one_dimensional (mkEnv ⟨5, 1, 1⟩ ⟨3, 1, 1⟩ ⟨2, 0, 0⟩ ⟨1, 0, 0⟩)
    rfl rfl rfl rfl rfl rfl rfl rfl

/-- C4: `first()` returns `true` exactly when both the block index and the
thread index are the all-zero 3-tuple; consequently, in every launch
configuration (all dimension components at least `1`) exactly one valid
`(block_idx, thread_idx)` pair makes it return `true`. -/
theorem first_iff_origin :
    (∀ env : ThreadEnv, first env = true ↔
      block_idx env = Vec3.zero ∧ thread_idx env = Vec3.zero) ∧
    (∀ gd bd : Vec3 Nat,
      1 ≤ gd.x → 1 ≤ gd.y → 1 ≤ gd.z → 1 ≤ bd.x → 1 ≤ bd.y → 1 ≤ bd.z →
      ∃! p : Vec3 Nat × Vec3 Nat,
        (validIdx gd p.1 ∧ validIdx bd p.2) ∧
        first (mkEnv gd bd p.1 p.2) = true) := by
  refine ⟨first_eq_true_iff, ?_⟩
  intro gd bd hgx hgy hgz hbx hby hbz
  refine ⟨(Vec3.zero, Vec3.zero), ⟨⟨⟨hgx, hgy, hgz⟩, hbx, hby, hbz⟩, ?_⟩, ?_⟩
  · rw [first_eq_true_iff]
    exact ⟨rfl, rfl⟩
  · rintro ⟨bi, ti⟩ ⟨⟨hv1, hv2⟩, hf⟩
    rw [first_eq_true_iff, block_idx_mkEnv, thread_idx_mkEnv] at hf
    obtain ⟨h1, h2⟩ := hf
    simp only [Prod.mk.injEq]
    exact ⟨h1, h2⟩

/-- Witness for C4: in the launch with grid dimension `(1,1,1)` and block
dimension `(2,2,2)` exactly one valid thread satisfies `first()`. -/
theorem first_iff_origin_witness :
    ∃! p : Vec3 Nat × Vec3 Nat,
      (validIdx ⟨1, 1, 1⟩ p.1 ∧ validIdx ⟨2, 2, 2⟩ p.2) ∧
      first (mkEnv ⟨1, 1, 1⟩ ⟨2, 2, 2⟩ p.1 p.2) = true :=
  first_iff_origin.2 ⟨1, 1, 1⟩ ⟨2, 2, 2⟩ (by decide) (by decide) (by decide)
    (by decide) (by decide) (by decide)

/-- C5: for every environment (whose registers hold `u32` values, as the
intrinsics guarantee), `index_2d()` returns, per axis, exactly
`thread_idx[axis] + block_idx[axis] * block_dim[axis]` for the x and y
axes, and `index_3d()` returns it for the x, y and z axes — each component
computed from that axis's values alone, with no wrapping possible. -/
theorem per_axis_global_position (env : ThreadEnv) (h : EnvU32 env) :
    index_2d env = ⟨thread_idx_x env + block_idx_x env * block_dim_x env,
      thread_idx_y env + block_idx_y env * block_dim_y env⟩ ∧
    index_3d env = ⟨thread_idx_x env + block_idx_x env * block_dim_x env,
      thread_idx_y env + block_idx_y env * block_dim_y env,
      thread_idx_z env + block_idx_z env * block_dim_z env⟩ := by
  obtain ⟨h1, h2, h3, h4, h5, h6, h7, h8, h9, h10, h11, h12⟩ := h
  constructor
  · simp only [index_2d, thread_idx_x, thread_idx_y, block_idx_x, block_idx_y,
      block_dim_x, block_dim_y]
    rw [uadd_umul_small h1 h4 h7, uadd_umul_small h2 h5 h8]
  · simp only [index_3d, thread_idx_x, thread_idx_y, thread_idx_z,
      block_idx_x, block_idx_y, block_idx_z, block_dim_x, block_dim_y,
      block_dim_z]
    rw [uadd_umul_small h1 h4 h7, uadd_umul_small h2 h5 h8,
      uadd_umul_small h3 h6 h9]

/-- Witness for C5: a concrete environment with thread index `(0,1,2)`,
block index `(1,2,3)` and block dimension `(2,3,4)`. -/
theorem per_axis_global_position_witness :
    EnvU32 (mkEnv ⟨5, 6, 7⟩ ⟨2, 3, 4⟩ ⟨1, 2, 3⟩ ⟨0, 1, 2⟩) ∧
    index_2d (mkEnv ⟨5, 6, 7⟩ ⟨2, 3, 4⟩ ⟨1, 2, 3⟩ ⟨0, 1, 2⟩) = ⟨2, 7⟩ ∧
    index_3d (mkEnv ⟨5, 6, 7⟩ ⟨2, 3, 4⟩ ⟨1, 2, 3⟩ ⟨0, 1, 2⟩) = ⟨2, 7, 14⟩ :=
  ⟨by decide,
    ((per_axis_global_position _ (by decide)).1).trans (by decide),
    ((per_axis_global_position _ (by decide)).2).trans (by decide)⟩

/-- C6: for a block of `n` threads all reaching the same barrier call site
with per-thread predicates `preds`: if exactly `k` of them pass a non-zero
predicate, `sync_threads_count` returns `k` (the same aggregate in every
thread); `sync_threads_and` returns non-zero iff every thread's predicate
was non-zero; `sync_threads_or` returns non-zero iff at least one was. -/
theorem sync_threads_aggregates (n : Nat) (preds : Fin n → Nat) (k : Nat)
    (hk : (Finset.filter (fun i => preds i ≠ 0) Finset.univ).card = k) :
    sync_threads_count n preds = k ∧
    (sync_threads_and n preds ≠ 0 ↔ ∀ i, preds i ≠ 0) ∧
    (sync_threads_or n preds ≠ 0 ↔ ∃ i, preds i ≠ 0) := by
  refine ⟨hk, ?_, ?_⟩
  · by_cases h : ∀ i, preds i ≠ 0 <;> simp [sync_threads_and, h]
  · by_cases h : ∃ i, preds i ≠ 0 <;> simp [sync_threads_or, h]

/-- Witness for C6: a block of 4 threads whose predicates are `0,1,0,1`
(thread `i` passes `i mod 2`): exactly 2 non-zero predicates. -/
theorem sync_threads_aggregates_witness :
    (Finset.filter (fun i : Fin 4 => i.val % 2 ≠ 0) Finset.univ).card = 2 ∧
    sync_threads_count 4 (fun i => i.val % 2) = 2 ∧
    (sync_threads_and 4 (fun i => i.val % 2) ≠ 0 ↔
      ∀ i : Fin 4, i.val % 2 ≠ 0) ∧
    (sync_threads_or 4 (fun i => i.val % 2) ≠ 0 ↔
      ∃ i : Fin 4, i.val % 2 ≠ 0) :=
  ⟨by decide, sync_threads_aggregates 4 (fun i => i.val % 2) 2 (by decide)⟩

/-- C7: each composite accessor performs its three intrinsic register reads
in the fixed order x, then y, then z (Rust evaluates the arguments of
`Vec3::new` left to right), and returns the 3-component value whose
components are exactly those three reads in that order; the value agrees
with the untraced accessor. -/
theorem composite_read_order (env : ThreadEnv) :
    thread_idxTraced env =
      (⟨regValue env .tidX, regValue env .tidY, regValue env .tidZ⟩,
        [Reg.tidX, Reg.tidY, Reg.tidZ]) ∧
    block_idxTraced env =
      (⟨regValue env .bidX, regValue env .bidY, regValue env .bidZ⟩,
        [Reg.bidX, Reg.bidY, Reg.bidZ]) ∧
    block_dimTraced env =
      (⟨regValue env .bdimX, regValue env .bdimY, regValue env .bdimZ⟩,
        [Reg.bdimX, Reg.bdimY, Reg.bdimZ]) ∧
    grid_dimTraced env =
      (⟨regValue env .gdimX, regValue env .gdimY, regValue env .gdimZ⟩,
        [Reg.gdimX, Reg.gdimY, Reg.gdimZ]) ∧
    (thread_idxTraced env).1 = thread_idx env ∧
    (block_idxTraced env).1 = block_idx env ∧
    (block_dimTraced env).1 = block_dim env ∧
    (grid_dimTraced env).1 = grid_dim env :=
  ⟨rfl, rfl, rfl, rfl, rfl, rfl, rfl, rfl⟩

/-- C8 (amended): in a launch whose dimension components are all at least
`1`, whose index components are strictly below the corresponding
dimensions, and whose total thread count is at most `2 ^ 64` (so the
`usize` computation cannot wrap), `first()` returns `true` exactly when
`index()` returns `0`. -/
theorem first_iff_index_zero (gd bd bi ti : Vec3 Nat)
    (_hdims : 1 ≤ gd.x ∧ 1 ≤ gd.y ∧ 1 ≤ gd.z ∧
      1 ≤ bd.x ∧ 1 ≤ bd.y ∧ 1 ≤ bd.z)
    (hbi : validIdx gd bi) (hti : validIdx bd ti)
    (hfit : vol gd * vol bd ≤ USIZE) :
    (first (mkEnv gd bd bi ti) = true ↔ index (mkEnv gd bd bi ti) = 0) := by
  have hidx : index (mkEnv gd bd bi ti) = indexSpec gd bd bi ti := by
    rw [index_mkEnv_eq_mod]
    exact Nat.mod_eq_of_lt (Nat.lt_of_lt_of_le (indexSpec_lt hbi hti) hfit)
  rw [hidx, first_eq_true_iff, block_idx_mkEnv, thread_idx_mkEnv,
    indexSpec_eq_zero_iff hbi hti]

/-- Witness for C8 (amended): the all-zero thread of a `(2,1,1)`-grid,
`(4,1,1)`-block launch. -/
theorem first_iff_index_zero_witness :
    first (mkEnv ⟨2, 1, 1⟩ ⟨4, 1, 1⟩ ⟨0, 0, 0⟩ ⟨0, 0, 0⟩) = true ↔
    index (mkEnv ⟨2, 1, 1⟩ ⟨4, 1, 1⟩ ⟨0, 0, 0⟩ ⟨0, 0, 0⟩) = 0 :=
  first_iff_index_zero ⟨2, 1, 1⟩ ⟨4, 1, 1⟩ ⟨0, 0, 0⟩ ⟨0, 0, 0⟩ (by decide)
    (by decide) (by decide) (by decide)

/-- C8 fails as stated: at the u32-representable launch with grid dimension
`(2^30, 2^14, 2^14)` and block dimension `(1024,1,1)` (all components at
least `1`), the valid thread with block index `(0,0,1024)` and thread index
`(0,0,0)` gets `index() = 0` — its exact flattened index `2 ^ 64` wraps —
yet `first()` is `false` for it. -/
theorem first_iff_index_zero_counterexample :
    validIdx ⟨2^30, 2^14, 2^14⟩ ⟨0, 0, 1024⟩ ∧
    validIdx ⟨1024, 1, 1⟩ ⟨0, 0, 0⟩ ∧
    index (mkEnv ⟨2^30, 2^14, 2^14⟩ ⟨1024, 1, 1⟩ ⟨0, 0, 1024⟩ ⟨0, 0, 0⟩)
      = 0 ∧
    first (mkEnv ⟨2^30, 2^14, 2^14⟩ ⟨1024, 1, 1⟩ ⟨0, 0, 1024⟩ ⟨0, 0, 0⟩)
      = false := by
  refine ⟨by decide, by decide, by decide, by decide⟩

/-- C9: the x and y components of `index_3d()` coincide with the two
components of `index_2d()` in every environment. -/
theorem index_3d_restricts_to_index_2d (env : ThreadEnv) :
    (index_3d env).x = (index_2d env).x ∧
    (index_3d env).y = (index_2d env).y :=
  ⟨rfl, rfl⟩

/-- C10: each composite accessor agrees componentwise with the per-axis
scalar accessors of its category, both being the same `u32` register value
widened to `usize`. -/
theorem composite_eq_scalar (env : ThreadEnv) :
    thread_idx env =
      ⟨thread_idx_x env, thread_idx_y env, thread_idx_z env⟩ ∧
    block_idx env = ⟨block_idx_x env, block_idx_y env, block_idx_z env⟩ ∧
    block_dim env = ⟨block_dim_x env, block_dim_y env, block_dim_z env⟩ ∧
    grid_dim env = ⟨grid_dim_x env, grid_dim_y env, grid_dim_z env⟩ :=
  ⟨rfl, rfl, rfl, rfl⟩

end CudaStd
